import Mathlib

/-!
Verification of the nearest-point-on-mesh-surface module (`trimesh/nearest.py`).

The module is embedded shallowly:

* float64 coordinates become exact rationals (`ℚ`);
* a mesh is its ordered vertex list plus its ordered triangle list
  (`mesh.vertices`, `mesh.triangles`);
* the external services the module consumes — the r-tree over triangle
  bounding boxes (`mesh.triangles_tree()`), the k-d tree over vertices
  (`mesh.kdtree()`), the projection primitive
  (`trimesh.triangles.closest_point`), the process-wide constant `tol.merge`
  and the shape test `util.is_shape` — are not part of the source subset, so
  they are modelled from the spec's description of them; the projection
  primitive is kept abstract (a function parameter `proj`);
* a Python call that can raise becomes `Except QErr`; the squared distances
  the code compares are kept exact, and the single square root the code takes
  at the end is expressed with `Real.sqrt` in the theorems.
-/

namespace Trimesh

/-- A point of 3-space, one row of an (n,3) float array. -/
structure Vec3 where
  x : ℚ
  y : ℚ
  z : ℚ
deriving DecidableEq, Repr

def vecZero : Vec3 := ⟨0, 0, 0⟩

def Vec3.add (p q : Vec3) : Vec3 := ⟨p.x + q.x, p.y + q.y, p.z + q.z⟩

def Vec3.sub (p q : Vec3) : Vec3 := ⟨p.x - q.x, p.y - q.y, p.z - q.z⟩

/-- Componentwise absolute value, `np.abs`. -/
def Vec3.absv (p : Vec3) : Vec3 := ⟨|p.x|, |p.y|, |p.z|⟩

def Vec3.smul (a : ℚ) (p : Vec3) : Vec3 := ⟨a * p.x, a * p.y, a * p.z⟩

/-- Squared Euclidean distance, `((p - q) ** 2).sum()`. -/
def dist2 (p q : Vec3) : ℚ :=
  (p.x - q.x) * (p.x - q.x) + (p.y - q.y) * (p.y - q.y) + (p.z - q.z) * (p.z - q.z)

/-- One triangle of the mesh, one row of the (n,3,3) `mesh.triangles` array. -/
structure Tri where
  a : Vec3
  b : Vec3
  c : Vec3
deriving DecidableEq, Repr

def triZero : Tri := ⟨vecZero, vecZero, vecZero⟩

/-- Membership in a triangle's convex hull (the triangle's geometric extent),
stated with barycentric coefficients. -/
def inHull (t : Tri) (q : Vec3) : Prop :=
  ∃ u v w : ℚ, 0 ≤ u ∧ 0 ≤ v ∧ 0 ≤ w ∧ u + v + w = 1 ∧
    q = ((Vec3.smul u t.a).add (Vec3.smul v t.b)).add (Vec3.smul w t.c)

/-- An axis-aligned box, the (minx,miny,minz,maxx,maxy,maxz) tuple the r-tree
consumes. -/
structure Box where
  lo : Vec3
  hi : Vec3
deriving DecidableEq, Repr

/-- The axis-aligned bounding box of one triangle, as stored in the r-tree. -/
def Tri.aabb (t : Tri) : Box :=
  ⟨⟨min t.a.x (min t.b.x t.c.x), min t.a.y (min t.b.y t.c.y), min t.a.z (min t.b.z t.c.z)⟩,
   ⟨max t.a.x (max t.b.x t.c.x), max t.a.y (max t.b.y t.c.y), max t.a.z (max t.b.z t.c.z)⟩⟩

/-- Closed-interval overlap of two axis-aligned boxes on every axis. -/
def box_intersects (a b : Box) : Bool :=
  decide (a.lo.x ≤ b.hi.x) && decide (b.lo.x ≤ a.hi.x) &&
  decide (a.lo.y ≤ b.hi.y) && decide (b.lo.y ≤ a.hi.y) &&
  decide (a.lo.z ≤ b.hi.z) && decide (b.lo.z ≤ a.hi.z)

/-- The mesh as this module reads it: an ordered vertex sequence and an
ordered triangle sequence. -/
structure Mesh where
  vertices : List Vec3
  triangles : List Tri
deriving DecidableEq, Repr

/-- How a call fails: this module's own `ValueError`s are shape mismatches;
`numpy_error` stands for an exception raised inside numpy (`np.vstack` on an
empty sequence, `argmin` of an empty slice); `index_error` stands for an
exception raised inside one of the external spatial-index services. -/
inductive QErr where
  | shape_mismatch (msg : String)
  | numpy_error (msg : String)
  | index_error (msg : String)
deriving DecidableEq, Repr

/-- Modelled from the spec: the process-wide merge tolerance `tol.merge` (the
`constants` module is outside this source subset), "a small fixed merge
tolerance (a numerical slack constant shared process-wide)"; trimesh's value
is 1e-8. -/
def tol_merge : ℚ := 1 / 100000000

/-- Index of the first minimum of a list of rationals, `np.argmin`. -/
def argmin_idx : List ℚ → ℕ
  | [] => 0
  | [_] => 0
  | x :: y :: rest =>
    if (y :: rest).getD (argmin_idx (y :: rest)) 0 < x then argmin_idx (y :: rest) + 1 else 0

/-- Modelled from the spec: the nearest-vertex index `mesh.kdtree().query(p)[1]`
(the k-d tree is an external service) — "given a query point, returns the index
and position of the mesh's closest vertex (ties broken arbitrarily but
deterministically by the underlying index)"; ties go to the lowest index. -/
def kdtree_nearest (mesh : Mesh) (p : Vec3) : ℕ :=
  argmin_idx (mesh.vertices.map fun v => dist2 p v)

/-- Modelled from the spec: the bounding-volume index
`mesh.triangles_tree().intersection(box)` (the r-tree is an external service) —
"given an axis-aligned box, returns the set of triangle indices whose own
bounding box intersects it (superset guarantee: never omits a true
intersection)", enumerated index-ascending. -/
def triangles_tree (mesh : Mesh) (b : Box) : List ℕ :=
  (List.range mesh.triangles.length).filter fun j =>
    box_intersects (Tri.aabb (mesh.triangles.getD j triZero)) b

/-- `nearby_faces(mesh, points)` on an already-validated (m,3) batch: for each
point, the nearest vertex is looked up, the per-axis absolute difference is
inflated by `tol.merge`, and the r-tree is queried with the box spanning
`[p - r, p + r]`. -/
def nearby_faces (mesh : Mesh) (points : List Vec3) : List (List ℕ) :=
  points.map fun p =>
    let v := mesh.vertices.getD (kdtree_nearest mesh p) vecZero
    let r := (Vec3.absv (p.sub v)).add ⟨tol_merge, tol_merge, tol_merge⟩
    triangles_tree mesh ⟨p.sub r, p.add r⟩

/-- The projected closest points of one point's candidate group (this point's
slice of `query_close`). `proj` is the supplied projection primitive
`trimesh.triangles.closest_point`, kept abstract. -/
def candidate_closes (proj : Tri → Vec3 → Vec3) (mesh : Mesh) (p : Vec3)
    (cand : List ℕ) : List Vec3 :=
  cand.map fun j => proj (mesh.triangles.getD j triZero) p

/-- The squared distances of one point's candidate group (this point's slice
of `distance_2`). -/
def candidate_d2 (proj : Tri → Vec3 → Vec3) (mesh : Mesh) (p : Vec3)
    (cand : List ℕ) : List ℚ :=
  (candidate_closes proj mesh p cand).map fun q => dist2 p q

/-- One iteration of the reduction loop of `closest_point`: `idx =
distance.argmin()`, then the closest point, squared distance and triangle id
at `idx`. `np.argmin` raises on an empty slice, which is how a point with no
candidates fails. -/
def reduce_one (proj : Tri → Vec3 → Vec3) (mesh : Mesh) (p : Vec3)
    (cand : List ℕ) : Except QErr (Vec3 × ℚ × ℕ) :=
  match cand with
  | [] => Except.error (QErr.numpy_error "attempt to get argmin of an empty sequence")
  | _ :: _ =>
    Except.ok
      ((candidate_closes proj mesh p cand).getD (argmin_idx (candidate_d2 proj mesh p cand)) vecZero,
       (candidate_d2 proj mesh p cand).getD (argmin_idx (candidate_d2 proj mesh p cand)) 0,
       cand.getD (argmin_idx (candidate_d2 proj mesh p cand)) 0)

/-- Sequencing of the per-point reductions: the loop runs in batch order and
the first exception aborts the whole call, discarding the zero-initialized
result arrays. -/
def seqE {α : Type} : List (Except QErr α) → Except QErr (List α)
  | [] => Except.ok []
  | Except.error e :: _ => Except.error e
  | Except.ok a :: rest =>
    match seqE rest with
    | Except.error e => Except.error e
    | Except.ok as => Except.ok (a :: as)

/-- `closest_point(mesh, points)` on an already-validated (m,3) batch.  The
candidate groups come from `nearby_faces`; the code flattens all (triangle,
point) pairs into one projector call and splits the results back by cumulative
candidate counts, which per point is exactly `reduce_one` on that point's
group.  `np.vstack` of an empty sequence of arrays (an empty batch) raises.
The returned middle component is the squared distance; the source applies one
final square root to it (`result_distance **= .5`). -/
def closest_point (proj : Tri → Vec3 → Vec3) (mesh : Mesh) (points : List Vec3) :
    Except QErr (List Vec3 × List ℚ × List ℕ) :=
  match points with
  | [] => Except.error (QErr.numpy_error "need at least one array to concatenate")
  | _ :: _ =>
    match seqE ((points.zip (nearby_faces mesh points)).map fun pc =>
        reduce_one proj mesh pc.1 pc.2) with
    | Except.error e => Except.error e
    | Except.ok rows =>
      Except.ok (rows.map Prod.fst, rows.map (fun r => r.2.1), rows.map (fun r => r.2.2))

/-- `closest_point_naive(mesh, points)` on validated input: every point is
compared against every triangle (tiling order is index-ascending), then each
point's row is reduced by `argmin`; with zero triangles the per-point `argmin`
raises.  The returned middle component is again the squared distance (the
source takes `** .5` at the end). -/
def closest_point_naive (proj : Tri → Vec3 → Vec3) (mesh : Mesh) (points : List Vec3) :
    Except QErr (List Vec3 × List ℚ × List ℕ) :=
  match seqE (points.map fun p => reduce_one proj mesh p (List.range mesh.triangles.length)) with
  | Except.error e => Except.error e
  | Except.ok rows =>
    Except.ok (rows.map Prod.fst, rows.map (fun r => r.2.1), rows.map (fun r => r.2.2))

/-- Modelled from the spec: `util.is_shape(points, (-1, 3))` (`util` is outside
this source subset) — "points input must be convertible to a real-valued
(m,3) array": every row of the raw input has length 3. -/
def valid_points (pts : List (List ℚ)) : Bool :=
  pts.all fun r => decide (r.length = 3)

/-- Conversion of raw input rows to points, `np.asanyarray` followed by the
shape test. -/
def parse_points (pts : List (List ℚ)) : Option (List Vec3) :=
  if valid_points pts then some (pts.map fun r => ⟨r.getD 0 0, r.getD 1 0, r.getD 2 0⟩)
  else none

/-- `nearby_faces` from raw input: the shape check runs before either spatial
index is touched and raises `ValueError('points must be (n,3)!')`. -/
def nearby_faces_checked (mesh : Mesh) (pts : List (List ℚ)) :
    Except QErr (List (List ℕ)) :=
  match parse_points pts with
  | none => Except.error (QErr.shape_mismatch "points must be (n,3)!")
  | some points => Except.ok (nearby_faces mesh points)

/-- `closest_point` from raw input: the shape check runs before any index is
queried. -/
def closest_point_checked (proj : Tri → Vec3 → Vec3) (mesh : Mesh)
    (pts : List (List ℚ)) : Except QErr (List Vec3 × List ℚ × List ℕ) :=
  match parse_points pts with
  | none => Except.error (QErr.shape_mismatch "points must be (n,3)!")
  | some points => closest_point proj mesh points

/-- `closest_point_naive` from raw input; its message has no bang in the
source. The triangles of a `Mesh` are (n,3,3) by construction, so only the
points check can fire here. -/
def closest_point_naive_checked (proj : Tri → Vec3 → Vec3) (mesh : Mesh)
    (pts : List (List ℚ)) : Except QErr (List Vec3 × List ℚ × List ℕ) :=
  match parse_points pts with
  | none => Except.error (QErr.shape_mismatch "points must be (n,3)")
  | some points => closest_point_naive proj mesh points

/-- `Nearest.on_surface(points)` delegates to `closest_point`. -/
def Nearest_on_surface (proj : Tri → Vec3 → Vec3) (mesh : Mesh)
    (pts : List (List ℚ)) : Except QErr (List Vec3 × List ℚ × List ℕ) :=
  closest_point_checked proj mesh pts

/-- Modelled from the spec: a raw query against the nearest-vertex index,
`mesh.kdtree().query(points)`.  The index service itself rejects a malformed
query with its own error; a well-formed query returns per point the (squared)
distance to and index of the nearest vertex (the service reports the Euclidean
distance; the exact square is kept here). -/
def kdtree_query_raw (mesh : Mesh) (pts : List (List ℚ)) :
    Except QErr (List (ℚ × ℕ)) :=
  match parse_points pts with
  | none => Except.error (QErr.index_error "x must consist of vectors of length 3")
  | some points =>
    Except.ok (points.map fun p =>
      (dist2 p (mesh.vertices.getD (kdtree_nearest mesh p) vecZero), kdtree_nearest mesh p))

/-- `Nearest.vertex(points)`: the source passes `points` straight to
`self.mesh.kdtree().query(points)` with no validation of its own. -/
def Nearest_vertex (mesh : Mesh) (pts : List (List ℚ)) :
    Except QErr (List (ℚ × ℕ)) :=
  kdtree_query_raw mesh pts

/-! ### A concrete two-triangle mesh on which the culling box is unsound

Triangle A touches the query box near the corner (1,1,0); triangle B is the
vertical triangle in the plane x = 13/10, whose interior point (13/10,0,0) is
the true closest surface point to the origin, closer than everything on A —
yet every vertex of B is far away, so the per-axis culling radius built from
the nearest vertex (1,1,0) stops at x = 1 + tol.merge < 13/10 and the r-tree
never reports B. -/

def cexP : Vec3 := ⟨0, 0, 0⟩

def cexQ0 : Vec3 := ⟨13/10, 0, 0⟩

def cexTriA : Tri := ⟨⟨1, 1, 0⟩, ⟨3, 1, 0⟩, ⟨1, 3, 0⟩⟩

def cexTriB : Tri := ⟨⟨13/10, -10, 0⟩, ⟨13/10, 10, 0⟩, ⟨13/10, 0, 10⟩⟩

def cexMesh : Mesh :=
  ⟨[⟨1, 1, 0⟩, ⟨3, 1, 0⟩, ⟨1, 3, 0⟩, ⟨13/10, -10, 0⟩, ⟨13/10, 10, 0⟩, ⟨13/10, 0, 10⟩],
   [cexTriA, cexTriB]⟩

/-- A concrete projection primitive for the mesh above: it reports the true
closest point (13/10,0,0) on triangle B and the corner of the triangle
otherwise — enough to instantiate the abstract `proj` hypotheses. -/
def cexProj : Tri → Vec3 → Vec3 := fun t _ => if t = cexTriB then cexQ0 else t.a

/-- A mesh with a vertex but no triangles: its candidate sets are empty. -/
def cexEmptyMesh : Mesh := ⟨[vecZero], []⟩

/-! ### List helpers -/

theorem getD_map_lt {α β : Type} (f : α → β) (l : List α) (i : ℕ) (h : i < l.length)
    (d : β) (e : α) : (l.map f).getD i d = f (l.getD i e) := by
  induction l generalizing i with
  | nil => simp at h
  | cons a t ih =>
    cases i with
    | zero => rfl
    | succ n => exact ih n (by simpa using h)

theorem getD_zip_lt {α β : Type} (l₁ : List α) (l₂ : List β) (i : ℕ)
    (h₁ : i < l₁.length) (h₂ : i < l₂.length) (d₁ : α) (d₂ : β) :
    (l₁.zip l₂).getD i (d₁, d₂) = (l₁.getD i d₁, l₂.getD i d₂) := by
  induction l₁ generalizing l₂ i with
  | nil => simp at h₁
  | cons a t ih =>
    cases l₂ with
    | nil => simp at h₂
    | cons b s =>
      cases i with
      | zero => rfl
      | succ n => exact ih s n (by simpa using h₁) (by simpa using h₂)

theorem getD_default_irrel {α : Type} (l : List α) (i : ℕ) (h : i < l.length)
    (d e : α) : l.getD i d = l.getD i e := by
  induction l generalizing i with
  | nil => simp at h
  | cons a t ih =>
    cases i with
    | zero => rfl
    | succ n => exact ih n (by simpa using h)

/-! ### Properties of `argmin_idx` (`np.argmin`) -/

theorem argmin_idx_lt_length : ∀ l : List ℚ, l ≠ [] → argmin_idx l < l.length
  | [], h => absurd rfl h
  | [_], _ => by simp [argmin_idx]
  | x :: y :: rest, _ => by
    have ih := argmin_idx_lt_length (y :: rest) (by simp)
    have hlen : (y :: rest).length = rest.length + 1 := rfl
    by_cases h : (y :: rest).getD (argmin_idx (y :: rest)) 0 < x
    · simp only [argmin_idx, if_pos h, List.length_cons]
      omega
    · simp only [argmin_idx, if_neg h, List.length_cons]
      omega

theorem argmin_idx_min : ∀ (l : List ℚ) (k : ℕ), k < l.length →
    l.getD (argmin_idx l) 0 ≤ l.getD k 0
  | [], k, hk => by simp at hk
  | [x], k, hk => by
    have hk0 : k = 0 := by simpa [Nat.lt_one_iff] using hk
    subst hk0
    simp [argmin_idx]
  | x :: y :: rest, k, hk => by
    have ih := fun k hk => argmin_idx_min (y :: rest) k hk
    by_cases h : (y :: rest).getD (argmin_idx (y :: rest)) 0 < x
    · simp only [argmin_idx, if_pos h]
      cases k with
      | zero => exact le_of_lt h
      | succ n =>
        show (y :: rest).getD (argmin_idx (y :: rest)) 0 ≤ (y :: rest).getD n 0
        exact ih n (by simpa using hk)
    · simp only [argmin_idx, if_neg h]
      cases k with
      | zero => exact le_refl x
      | succ n =>
        show x ≤ (y :: rest).getD n 0
        exact le_trans (not_lt.mp h) (ih n (by simpa using hk))

theorem argmin_idx_first : ∀ (l : List ℚ) (k : ℕ), k < argmin_idx l →
    l.getD (argmin_idx l) 0 < l.getD k 0
  | [], k, hk => by simp [argmin_idx] at hk
  | [_], k, hk => by simp [argmin_idx] at hk
  | x :: y :: rest, k, hk => by
    have ih := fun k hk => argmin_idx_first (y :: rest) k hk
    by_cases h : (y :: rest).getD (argmin_idx (y :: rest)) 0 < x
    · simp only [argmin_idx, if_pos h] at hk ⊢
      cases k with
      | zero => exact h
      | succ n =>
        show (y :: rest).getD (argmin_idx (y :: rest)) 0 < (y :: rest).getD n 0
        exact ih n (by omega)
    · simp only [argmin_idx, if_neg h] at hk
      omega

/-! ### Properties of `seqE` -/

theorem seqE_ok_length {α : Type} : ∀ (l : List (Except QErr α)) (as : List α),
    seqE l = Except.ok as → as.length = l.length
  | [], as, h => by
    simp only [seqE, Except.ok.injEq] at h
    simp [← h]
  | Except.error e :: t, as, h => by simp [seqE] at h
  | Except.ok a :: t, as, h => by
    simp only [seqE] at h
    cases hs : seqE t with
    | error e => rw [hs] at h; simp at h
    | ok bs =>
      rw [hs] at h
      simp only [Except.ok.injEq] at h
      have := seqE_ok_length t bs hs
      simp [← h, this]

theorem seqE_ok_getD {α : Type} : ∀ (l : List (Except QErr α)) (as : List α),
    seqE l = Except.ok as → ∀ (i : ℕ), i < l.length →
    ∀ (d : Except QErr α) (e : α), l.getD i d = Except.ok (as.getD i e)
  | [], as, h => by intro i hi; simp at hi
  | Except.error e :: t, as, h => by simp [seqE] at h
  | Except.ok a :: t, as, h => by
    intro i hi
    simp only [seqE] at h
    cases hs : seqE t with
    | error e => rw [hs] at h; simp at h
    | ok bs =>
      rw [hs] at h
      simp only [Except.ok.injEq] at h
      subst h
      cases i with
      | zero => intro d e; rfl
      | succ n => exact seqE_ok_getD t bs hs n (by simpa using hi)

theorem seqE_error {α : Type} : ∀ (l : List (Except QErr α)) (i : ℕ), i < l.length →
    ∀ (e : QErr) (d : Except QErr α), l.getD i d = Except.error e →
    ∃ e₂, seqE l = Except.error e₂
  | [], i, hi => by simp at hi
  | Except.error e₁ :: t, i, hi => fun e d h => ⟨e₁, rfl⟩
  | Except.ok a :: t, i, hi => by
    cases i with
    | zero => intro e d h; simp [List.getD] at h
    | succ n =>
      intro e d h
      obtain ⟨e₂, he₂⟩ := seqE_error t n (by simpa using hi) e d h
      refine ⟨e₂, ?_⟩
      simp [seqE, he₂]

/-! ### Structural lemmas about the reducer and the batch pipeline -/

theorem dist2_nonneg (p q : Vec3) : 0 ≤ dist2 p q := by
  simp only [dist2]
  nlinarith [mul_self_nonneg (p.x - q.x), mul_self_nonneg (p.y - q.y),
    mul_self_nonneg (p.z - q.z)]

theorem candidate_closes_length (proj : Tri → Vec3 → Vec3) (mesh : Mesh) (p : Vec3)
    (cand : List ℕ) : (candidate_closes proj mesh p cand).length = cand.length := by
  simp [candidate_closes]

theorem candidate_d2_length (proj : Tri → Vec3 → Vec3) (mesh : Mesh) (p : Vec3)
    (cand : List ℕ) : (candidate_d2 proj mesh p cand).length = cand.length := by
  simp [candidate_d2, candidate_closes]

theorem reduce_one_ok_inv (proj : Tri → Vec3 → Vec3) (mesh : Mesh) (p : Vec3)
    (cand : List ℕ) (v : Vec3) (d : ℚ) (t : ℕ)
    (h : reduce_one proj mesh p cand = Except.ok (v, d, t)) :
    cand ≠ [] ∧
    v = (candidate_closes proj mesh p cand).getD
      (argmin_idx (candidate_d2 proj mesh p cand)) vecZero ∧
    d = (candidate_d2 proj mesh p cand).getD
      (argmin_idx (candidate_d2 proj mesh p cand)) 0 ∧
    t = cand.getD (argmin_idx (candidate_d2 proj mesh p cand)) 0 := by
  cases cand with
  | nil => simp [reduce_one] at h
  | cons c cs =>
    simp only [reduce_one, Except.ok.injEq, Prod.mk.injEq] at h
    exact ⟨by simp, h.1.symm, h.2.1.symm, h.2.2.symm⟩

theorem closest_point_ok_parts (proj : Tri → Vec3 → Vec3) (mesh : Mesh)
    (points : List Vec3) (cl : List Vec3) (d2 : List ℚ) (tid : List ℕ)
    (h : closest_point proj mesh points = Except.ok (cl, d2, tid)) :
    cl.length = points.length ∧ d2.length = points.length ∧ tid.length = points.length ∧
    ∀ i, i < points.length →
      reduce_one proj mesh (points.getD i vecZero) ((nearby_faces mesh points).getD i []) =
        Except.ok (cl.getD i vecZero, d2.getD i 0, tid.getD i 0) := by
  cases points with
  | nil => simp [closest_point] at h
  | cons p ps =>
    simp only [closest_point] at h
    split at h
    · simp at h
    · next rows hrows =>
      simp only [Except.ok.injEq, Prod.mk.injEq] at h
      obtain ⟨hcl, hd2, htid⟩ := h
      have hnlen : (nearby_faces mesh (p :: ps)).length = (p :: ps).length := by
        simp [nearby_faces]
      have hzlen : ((p :: ps).zip (nearby_faces mesh (p :: ps))).length = (p :: ps).length := by
        simp [hnlen]
      have hLlen : (((p :: ps).zip (nearby_faces mesh (p :: ps))).map fun pc =>
          reduce_one proj mesh pc.1 pc.2).length = (p :: ps).length := by
        simp [hzlen]
      have hrowlen : rows.length = (p :: ps).length := by
        rw [seqE_ok_length _ _ hrows, hLlen]
      refine ⟨by simp [← hcl, hrowlen], by simp [← hd2, hrowlen],
        by simp [← htid, hrowlen], ?_⟩
      intro i hi
      have hget := seqE_ok_getD _ _ hrows i (by rw [hLlen]; exact hi)
        (Except.ok (vecZero, (0 : ℚ), (0 : ℕ))) (vecZero, (0 : ℚ), (0 : ℕ))
      rw [getD_map_lt _ _ i (by rw [hzlen]; exact hi) _ (vecZero, ([] : List ℕ))] at hget
      rw [getD_zip_lt _ _ i hi (by rw [hnlen]; exact hi)] at hget
      have h1 : cl.getD i vecZero = (rows.getD i (vecZero, (0 : ℚ), (0 : ℕ))).1 := by
        rw [← hcl]; exact getD_map_lt _ _ i (by rw [hrowlen]; exact hi) _ _
      have h2 : d2.getD i 0 = (rows.getD i (vecZero, (0 : ℚ), (0 : ℕ))).2.1 := by
        rw [← hd2]; exact getD_map_lt _ _ i (by rw [hrowlen]; exact hi) _ _
      have h3 : tid.getD i 0 = (rows.getD i (vecZero, (0 : ℚ), (0 : ℕ))).2.2 := by
        rw [← htid]; exact getD_map_lt _ _ i (by rw [hrowlen]; exact hi) _ _
      rw [h1, h2, h3]
      exact hget

theorem closest_point_error_of_row (proj : Tri → Vec3 → Vec3) (mesh : Mesh)
    (points : List Vec3) (i : ℕ) (hi : i < points.length) (e : QErr)
    (hrow : reduce_one proj mesh (points.getD i vecZero)
      ((nearby_faces mesh points).getD i []) = Except.error e) :
    ∃ e₂, closest_point proj mesh points = Except.error e₂ := by
  cases points with
  | nil => exact ⟨QErr.numpy_error "need at least one array to concatenate", rfl⟩
  | cons p ps =>
    have hnlen : (nearby_faces mesh (p :: ps)).length = (p :: ps).length := by
      simp [nearby_faces]
    have hzlen : ((p :: ps).zip (nearby_faces mesh (p :: ps))).length = (p :: ps).length := by
      simp [hnlen]
    have hLlen : (((p :: ps).zip (nearby_faces mesh (p :: ps))).map fun pc =>
        reduce_one proj mesh pc.1 pc.2).length = (p :: ps).length := by
      simp [hzlen]
    have hL : (((p :: ps).zip (nearby_faces mesh (p :: ps))).map fun pc =>
        reduce_one proj mesh pc.1 pc.2).getD i (Except.ok (vecZero, (0 : ℚ), (0 : ℕ))) =
        Except.error e := by
      rw [getD_map_lt _ _ i (by rw [hzlen]; exact hi) _ (vecZero, ([] : List ℕ))]
      rw [getD_zip_lt _ _ i hi (by rw [hnlen]; exact hi)]
      exact hrow
    obtain ⟨e₂, he₂⟩ := seqE_error _ i (by rw [hLlen]; exact hi) e _ hL
    refine ⟨e₂, ?_⟩
    simp only [closest_point]
    rw [he₂]

theorem closest_point_naive_error_of_row (proj : Tri → Vec3 → Vec3) (mesh : Mesh)
    (points : List Vec3) (i : ℕ) (hi : i < points.length) (e : QErr)
    (hrow : reduce_one proj mesh (points.getD i vecZero)
      (List.range mesh.triangles.length) = Except.error e) :
    ∃ e₂, closest_point_naive proj mesh points = Except.error e₂ := by
  have hL : (points.map fun p => reduce_one proj mesh p
      (List.range mesh.triangles.length)).getD i (Except.ok (vecZero, (0 : ℚ), (0 : ℕ))) =
      Except.error e := by
    rw [getD_map_lt _ _ i hi _ vecZero]
    exact hrow
  obtain ⟨e₂, he₂⟩ := seqE_error _ i (by simpa using hi) e _ hL
  refine ⟨e₂, ?_⟩
  simp only [closest_point_naive]
  rw [he₂]

theorem closest_point_one (proj : Tri → Vec3 → Vec3) (mesh : Mesh) (p : Vec3)
    (c : List ℕ) (v : Vec3) (d : ℚ) (t : ℕ) (hc : nearby_faces mesh [p] = [c])
    (hr : reduce_one proj mesh p c = Except.ok (v, d, t)) :
    closest_point proj mesh [p] = Except.ok ([v], [d], [t]) := by
  simp only [closest_point, hc]
  have hz : ([p].zip [c]).map (fun pc => reduce_one proj mesh pc.1 pc.2) =
      [reduce_one proj mesh p c] := rfl
  rw [hz, hr]
  rfl

theorem closest_point_naive_one (proj : Tri → Vec3 → Vec3) (mesh : Mesh) (p : Vec3)
    (v : Vec3) (d : ℚ) (t : ℕ)
    (hr : reduce_one proj mesh p (List.range mesh.triangles.length) = Except.ok (v, d, t)) :
    closest_point_naive proj mesh [p] = Except.ok ([v], [d], [t]) := by
  simp only [closest_point_naive]
  have hz : [p].map (fun q => reduce_one proj mesh q (List.range mesh.triangles.length)) =
      [reduce_one proj mesh p (List.range mesh.triangles.length)] := rfl
  rw [hz, hr]
  rfl

/-! ### Nearest-vertex index facts -/

theorem kdtree_nearest_lt (mesh : Mesh) (p : Vec3) (hv : mesh.vertices ≠ []) :
    kdtree_nearest mesh p < mesh.vertices.length := by
  have hne : mesh.vertices.map (fun v => dist2 p v) ≠ [] := by simp [hv]
  have := argmin_idx_lt_length _ hne
  simpa [kdtree_nearest] using this

theorem kdtree_nearest_is_min (mesh : Mesh) (p : Vec3) (j : ℕ)
    (hj : j < mesh.vertices.length) :
    dist2 p (mesh.vertices.getD (kdtree_nearest mesh p) vecZero) ≤
      dist2 p (mesh.vertices.getD j vecZero) := by
  have hv : mesh.vertices ≠ [] := by
    intro he
    rw [he] at hj
    simp at hj
  have hlt := kdtree_nearest_lt mesh p hv
  have heq : argmin_idx (mesh.vertices.map fun v => dist2 p v) = kdtree_nearest mesh p := rfl
  have hmin := argmin_idx_min (mesh.vertices.map fun v => dist2 p v) j (by simpa using hj)
  rw [heq] at hmin
  rw [getD_map_lt _ _ _ (by simpa using hlt) _ vecZero] at hmin
  rw [getD_map_lt _ _ _ (by simpa using hj) _ vecZero] at hmin
  exact hmin

theorem cex_kd : kdtree_nearest cexMesh cexP = 0 := by
  norm_num [kdtree_nearest, cexMesh, cexP, dist2, argmin_idx, List.getD]

theorem cex_candidates : nearby_faces cexMesh [cexP] = [[0]] := by
  have hv : cexMesh.vertices.getD (kdtree_nearest cexMesh cexP) vecZero = ⟨1, 1, 0⟩ := by
    rw [cex_kd]
    rfl
  have hr : List.range cexMesh.triangles.length = [0, 1] := rfl
  simp only [nearby_faces, List.map, hv]
  norm_num [triangles_tree, hr, box_intersects, Tri.aabb, tol_merge, Vec3.absv,
    Vec3.sub, Vec3.add, cexMesh, cexP, cexTriA, cexTriB, List.getD_cons_zero,
    List.getD_cons_succ, List.filter, min_def, max_def]

theorem cex_dist2_q0 : dist2 cexP cexQ0 = 169/100 := by
  norm_num [dist2, cexP, cexQ0]

theorem cexQ0_inHull : inHull cexTriB cexQ0 := by
  refine ⟨1/2, 1/2, 0, by norm_num, by norm_num, le_refl 0, by norm_num, ?_⟩
  simp only [cexTriB, cexQ0, Vec3.add, Vec3.smul]
  norm_num

theorem hull_A_far (q : Vec3) (h : inHull cexTriA q) : 2 ≤ dist2 cexP q := by
  obtain ⟨u, v, w, hu, hv, hw, hsum, hq⟩ := h
  have hx : 1 ≤ q.x := by
    rw [hq]
    simp only [cexTriA, Vec3.add, Vec3.smul]
    linarith
  have hy : 1 ≤ q.y := by
    rw [hq]
    simp only [cexTriA, Vec3.add, Vec3.smul]
    linarith
  have hd : dist2 cexP q = q.x * q.x + q.y * q.y + q.z * q.z := by
    simp only [dist2, cexP]
    ring
  rw [hd]
  nlinarith [mul_self_nonneg q.z, hx, hy]

theorem hull_B_far (q : Vec3) (h : inHull cexTriB q) : 169/100 ≤ dist2 cexP q := by
  obtain ⟨u, v, w, hu, hv, hw, hsum, hq⟩ := h
  have hx : q.x = 13/10 := by
    rw [hq]
    simp only [cexTriB, Vec3.add, Vec3.smul]
    linarith
  have hd : dist2 cexP q = q.x * q.x + q.y * q.y + q.z * q.z := by
    simp only [dist2, cexP]
    ring
  rw [hd, hx]
  nlinarith [mul_self_nonneg q.y, mul_self_nonneg q.z]

theorem cex_reduce_tree (proj : Tri → Vec3 → Vec3) :
    reduce_one proj cexMesh cexP [0] =
      Except.ok (proj cexTriA cexP, dist2 cexP (proj cexTriA cexP), 0) := rfl

theorem cex_reduce_naive (proj : Tri → Vec3 → Vec3)
    (hlt : dist2 cexP (proj cexTriB cexP) < dist2 cexP (proj cexTriA cexP)) :
    reduce_one proj cexMesh cexP [0, 1] =
      Except.ok (proj cexTriB cexP, dist2 cexP (proj cexTriB cexP), 1) := by
  have ha : argmin_idx (candidate_d2 proj cexMesh cexP [0, 1]) = 1 := by
    show argmin_idx [dist2 cexP (proj cexTriA cexP), dist2 cexP (proj cexTriB cexP)] = 1
    simp only [argmin_idx, List.getD_cons_zero]
    rw [if_pos hlt]
  show Except.ok
      ((candidate_closes proj cexMesh cexP [0, 1]).getD
        (argmin_idx (candidate_d2 proj cexMesh cexP [0, 1])) vecZero,
       (candidate_d2 proj cexMesh cexP [0, 1]).getD
        (argmin_idx (candidate_d2 proj cexMesh cexP [0, 1])) 0,
       [0, 1].getD (argmin_idx (candidate_d2 proj cexMesh cexP [0, 1])) 0) = _
  rw [ha]
  rfl

/-- C1: on the two-triangle mesh `cexMesh` and the origin as (non-degenerate)
query point, `closest_point` and `closest_point_naive` disagree for every
projection primitive that returns a point of the queried triangle at least as
close as (13/10,0,0) on triangle B: the culled call reports triangle 0 at
squared distance ≥ 2 while the naive call reports triangle 1 at squared
distance ≤ 169/100 — a real divergence, not a tolerance or tie-break
artefact. -/
theorem closest_point_disagrees_with_naive (proj : Tri → Vec3 → Vec3)
    (hBle : dist2 cexP (proj cexTriB cexP) ≤ dist2 cexP cexQ0)
    (hA : inHull cexTriA (proj cexTriA cexP)) :
    closest_point proj cexMesh [cexP] ≠ closest_point_naive proj cexMesh [cexP] := by
  have hdB : dist2 cexP (proj cexTriB cexP) ≤ 169/100 := by
    rw [← cex_dist2_q0]
    exact hBle
  have hdA : 2 ≤ dist2 cexP (proj cexTriA cexP) := hull_A_far _ hA
  have hlt : dist2 cexP (proj cexTriB cexP) < dist2 cexP (proj cexTriA cexP) := by
    calc dist2 cexP (proj cexTriB cexP) ≤ 169/100 := hdB
      _ < 2 := by norm_num
      _ ≤ dist2 cexP (proj cexTriA cexP) := hdA
  have h1 := closest_point_one proj cexMesh cexP [0] _ _ _ cex_candidates
    (cex_reduce_tree proj)
  have hrange : List.range cexMesh.triangles.length = [0, 1] := rfl
  have h2 : closest_point_naive proj cexMesh [cexP] =
      Except.ok ([proj cexTriB cexP], [dist2 cexP (proj cexTriB cexP)], [1]) := by
    apply closest_point_naive_one
    rw [hrange]
    exact cex_reduce_naive proj hlt
  rw [h1, h2]
  intro hcontra
  simp only [Except.ok.injEq, Prod.mk.injEq, List.cons.injEq] at hcontra
  exact absurd hcontra.2.2.1 (by norm_num)

/-- Witness for C1: the divergence is realized by the concrete projection
primitive `cexProj`. -/
theorem closest_point_disagrees_with_naive_witness :
    closest_point cexProj cexMesh [cexP] ≠ closest_point_naive cexProj cexMesh [cexP] := by
  apply closest_point_disagrees_with_naive
  · have h : cexProj cexTriB cexP = cexQ0 := by simp [cexProj]
    rw [h]
  · have hne : cexTriA ≠ cexTriB := by
      intro h
      have := congrArg (fun t => t.a.x) h
      norm_num [cexTriA, cexTriB] at this
    have h : cexProj cexTriA cexP = cexTriA.a := by simp [cexProj, hne]
    rw [h]
    exact ⟨1, 0, 0, by norm_num, le_refl 0, le_refl 0, by norm_num,
      by norm_num [cexTriA, Vec3.add, Vec3.smul]⟩

/-- C2: on `cexMesh`, with the modelled indices behaving ideally (the last
conjunct shows the nearest-vertex lookup really returned a nearest vertex,
and the modelled r-tree reports exactly the true box intersections),
`nearby_faces` returns only triangle 0 for the origin — yet the true closest
surface point (13/10,0,0) lies on triangle 1: its distance² is 169/100, every
point of triangle 1 is at distance² ≥ 169/100 and every point of triangle 0
at distance² ≥ 2.  The candidate set misses the triangle carrying the true
closest point, contradicting the docstring's guarantee. -/
theorem nearby_faces_misses_closest_triangle :
    nearby_faces cexMesh [cexP] = [[0]] ∧
    cexMesh.triangles.getD 1 triZero = cexTriB ∧
    inHull cexTriB cexQ0 ∧
    dist2 cexP cexQ0 = 169/100 ∧
    (∀ q, inHull cexTriB q → 169/100 ≤ dist2 cexP q) ∧
    (∀ q, inHull cexTriA q → 2 ≤ dist2 cexP q) ∧
    (∀ j, j < cexMesh.vertices.length →
      dist2 cexP (cexMesh.vertices.getD (kdtree_nearest cexMesh cexP) vecZero) ≤
        dist2 cexP (cexMesh.vertices.getD j vecZero)) :=
  ⟨cex_candidates, rfl, cexQ0_inHull, cex_dist2_q0, hull_B_far, hull_A_far,
    fun j hj => kdtree_nearest_is_min cexMesh cexP j hj⟩

theorem cex_triA_ne_triB : cexTriA ≠ cexTriB := by
  intro h
  have := congrArg (fun t => t.a.x) h
  norm_num [cexTriA, cexTriB] at this

theorem cex_projA : cexProj cexTriA cexP = Vec3.mk 1 1 0 := by
  simp only [cexProj, if_neg cex_triA_ne_triB]
  rfl

theorem cex_projB : cexProj cexTriB cexP = cexQ0 := by
  simp [cexProj]

/-- Concrete evaluation of the culled query on the counterexample mesh:
triangle 0 wins with squared distance 2. -/
theorem cex_eval : closest_point cexProj cexMesh [cexP] =
    Except.ok ([Vec3.mk 1 1 0], [2], [0]) := by
  have h := closest_point_one cexProj cexMesh cexP [0] _ _ _ cex_candidates
    (cex_reduce_tree cexProj)
  rw [cex_projA] at h
  have hd : dist2 cexP (Vec3.mk 1 1 0) = 2 := by norm_num [dist2, cexP]
  rw [hd] at h
  exact h

theorem nearby_faces_getD (mesh : Mesh) (points : List Vec3) (j : ℕ)
    (hj : j < points.length) :
    (nearby_faces mesh points).getD j [] =
      (nearby_faces mesh [points.getD j vecZero]).getD 0 [] := by
  simp only [nearby_faces]
  rw [getD_map_lt _ points j hj _ vecZero]
  rfl

/-- C3: for every query point, the candidate list is computed by querying the
bounding-volume index with the box `[p - r, p + r]`, where `r` is the
componentwise absolute difference between `p` and a true nearest mesh vertex,
inflated by the merge tolerance on every axis. -/
theorem nearby_faces_box_exact (mesh : Mesh) (points : List Vec3) (i : ℕ)
    (hi : i < points.length) (hv : mesh.vertices ≠ []) :
    ∃ k, k < mesh.vertices.length ∧
      (∀ j, j < mesh.vertices.length →
        dist2 (points.getD i vecZero) (mesh.vertices.getD k vecZero) ≤
          dist2 (points.getD i vecZero) (mesh.vertices.getD j vecZero)) ∧
      (nearby_faces mesh points).getD i [] =
        triangles_tree mesh
          ⟨(points.getD i vecZero).sub
            ((Vec3.absv ((points.getD i vecZero).sub (mesh.vertices.getD k vecZero))).add
              ⟨tol_merge, tol_merge, tol_merge⟩),
           (points.getD i vecZero).add
            ((Vec3.absv ((points.getD i vecZero).sub (mesh.vertices.getD k vecZero))).add
              ⟨tol_merge, tol_merge, tol_merge⟩)⟩ := by
  refine ⟨kdtree_nearest mesh (points.getD i vecZero), kdtree_nearest_lt mesh _ hv,
    fun j hj => kdtree_nearest_is_min mesh _ j hj, ?_⟩
  simp only [nearby_faces]
  rw [getD_map_lt _ points i hi _ vecZero]

/-- Witness for C3 on the concrete mesh. -/
theorem nearby_faces_box_exact_witness :
    ∃ k, k < cexMesh.vertices.length ∧
      (∀ j, j < cexMesh.vertices.length →
        dist2 cexP (cexMesh.vertices.getD k vecZero) ≤
          dist2 cexP (cexMesh.vertices.getD j vecZero)) ∧
      (nearby_faces cexMesh [cexP]).getD 0 [] =
        triangles_tree cexMesh
          ⟨cexP.sub ((Vec3.absv (cexP.sub (cexMesh.vertices.getD k vecZero))).add
              ⟨tol_merge, tol_merge, tol_merge⟩),
           cexP.add ((Vec3.absv (cexP.sub (cexMesh.vertices.getD k vecZero))).add
              ⟨tol_merge, tol_merge, tol_merge⟩)⟩ :=
  nearby_faces_box_exact cexMesh [cexP] 0 (by norm_num) (by simp [cexMesh])

/-- C4: every returned squared distance is non-negative and is exactly the
squared distance between the query point and the returned closest point, so
the distance the source reports (its square root) is non-negative and is
exactly the Euclidean distance between the two. -/
theorem closest_point_distance_exact (proj : Tri → Vec3 → Vec3) (mesh : Mesh)
    (points : List Vec3) (cl : List Vec3) (d2 : List ℚ) (tid : List ℕ) (i : ℕ)
    (h : closest_point proj mesh points = Except.ok (cl, d2, tid))
    (hi : i < points.length) :
    0 ≤ d2.getD i 0 ∧
    d2.getD i 0 = dist2 (points.getD i vecZero) (cl.getD i vecZero) ∧
    Real.sqrt (d2.getD i 0) =
      Real.sqrt (dist2 (points.getD i vecZero) (cl.getD i vecZero)) ∧
    0 ≤ Real.sqrt (d2.getD i 0) := by
  obtain ⟨hcl, hd2len, htl, hrow⟩ := closest_point_ok_parts proj mesh points cl d2 tid h
  have hr := hrow i hi
  set p := points.getD i vecZero with hp
  set cand := (nearby_faces mesh points).getD i [] with hcand
  obtain ⟨hne, hv, hd, ht⟩ := reduce_one_ok_inv proj mesh _ _ _ _ _ hr
  set k := argmin_idx (candidate_d2 proj mesh p cand) with hk
  have hklt : k < cand.length := by
    have hlen := argmin_idx_lt_length (candidate_d2 proj mesh p cand)
      (by simp [candidate_d2, candidate_closes, hne])
    rw [candidate_d2_length] at hlen
    exact hlen
  have hdd : (candidate_d2 proj mesh p cand).getD k 0 =
      dist2 p ((candidate_closes proj mesh p cand).getD k vecZero) :=
    getD_map_lt _ (candidate_closes proj mesh p cand) k
      (by rw [candidate_closes_length]; exact hklt) 0 vecZero
  have key : d2.getD i 0 = dist2 p (cl.getD i vecZero) := by
    rw [hd, hdd, ← hv]
  refine ⟨?_, key, by rw [key], Real.sqrt_nonneg _⟩
  rw [key]
  exact dist2_nonneg _ _

/-- Witness for C4 on the concrete mesh. -/
theorem closest_point_distance_exact_witness :
    0 ≤ ([(2 : ℚ)].getD 0 0) ∧
    ([(2 : ℚ)].getD 0 0) =
      dist2 (([cexP] : List Vec3).getD 0 vecZero) (([Vec3.mk 1 1 0] : List Vec3).getD 0 vecZero) ∧
    Real.sqrt (([(2 : ℚ)].getD 0 0)) =
      Real.sqrt (dist2 (([cexP] : List Vec3).getD 0 vecZero)
        (([Vec3.mk 1 1 0] : List Vec3).getD 0 vecZero)) ∧
    0 ≤ Real.sqrt (([(2 : ℚ)].getD 0 0)) :=
  closest_point_distance_exact cexProj cexMesh [cexP] [Vec3.mk 1 1 0] [2] [0] 0
    cex_eval (by norm_num)

/-- C5: the reducer selects, among a point's candidates, one attaining the
minimum squared distance; ties go to the first candidate in enumeration
order (every earlier candidate is strictly farther), and the reported closest
point, squared distance and triangle id all come from that same candidate. -/
theorem closest_point_reducer_argmin (proj : Tri → Vec3 → Vec3) (mesh : Mesh)
    (points : List Vec3) (cl : List Vec3) (d2 : List ℚ) (tid : List ℕ) (i : ℕ)
    (h : closest_point proj mesh points = Except.ok (cl, d2, tid))
    (hi : i < points.length) :
    ∃ k, k < ((nearby_faces mesh points).getD i []).length ∧
      tid.getD i 0 = ((nearby_faces mesh points).getD i []).getD k 0 ∧
      cl.getD i vecZero = (candidate_closes proj mesh (points.getD i vecZero)
        ((nearby_faces mesh points).getD i [])).getD k vecZero ∧
      d2.getD i 0 = (candidate_d2 proj mesh (points.getD i vecZero)
        ((nearby_faces mesh points).getD i [])).getD k 0 ∧
      (∀ j, j < ((nearby_faces mesh points).getD i []).length →
        (candidate_d2 proj mesh (points.getD i vecZero)
          ((nearby_faces mesh points).getD i [])).getD k 0 ≤
        (candidate_d2 proj mesh (points.getD i vecZero)
          ((nearby_faces mesh points).getD i [])).getD j 0) ∧
      (∀ j, j < k →
        (candidate_d2 proj mesh (points.getD i vecZero)
          ((nearby_faces mesh points).getD i [])).getD k 0 <
        (candidate_d2 proj mesh (points.getD i vecZero)
          ((nearby_faces mesh points).getD i [])).getD j 0) := by
  obtain ⟨hcl, hd2len, htl, hrow⟩ := closest_point_ok_parts proj mesh points cl d2 tid h
  have hr := hrow i hi
  set p := points.getD i vecZero with hp
  set cand := (nearby_faces mesh points).getD i [] with hcand
  obtain ⟨hne, hv, hd, ht⟩ := reduce_one_ok_inv proj mesh _ _ _ _ _ hr
  refine ⟨argmin_idx (candidate_d2 proj mesh p cand), ?_, ht, hv, hd, ?_, ?_⟩
  · have hlen := argmin_idx_lt_length (candidate_d2 proj mesh p cand)
      (by simp [candidate_d2, candidate_closes, hne])
    rw [candidate_d2_length] at hlen
    exact hlen
  · intro j hj
    exact argmin_idx_min (candidate_d2 proj mesh p cand) j
      (by rw [candidate_d2_length]; exact hj)
  · intro j hj
    exact argmin_idx_first (candidate_d2 proj mesh p cand) j hj

/-- Witness for C5 on the concrete mesh. -/
theorem closest_point_reducer_argmin_witness :
    ∃ k, k < ((nearby_faces cexMesh [cexP]).getD 0 []).length ∧
      ([(0 : ℕ)].getD 0 0) = ((nearby_faces cexMesh [cexP]).getD 0 []).getD k 0 ∧
      ([Vec3.mk 1 1 0] : List Vec3).getD 0 vecZero =
        (candidate_closes cexProj cexMesh (([cexP] : List Vec3).getD 0 vecZero)
          ((nearby_faces cexMesh [cexP]).getD 0 [])).getD k vecZero ∧
      ([(2 : ℚ)].getD 0 0) = (candidate_d2 cexProj cexMesh (([cexP] : List Vec3).getD 0 vecZero)
        ((nearby_faces cexMesh [cexP]).getD 0 [])).getD k 0 ∧
      (∀ j, j < ((nearby_faces cexMesh [cexP]).getD 0 []).length →
        (candidate_d2 cexProj cexMesh (([cexP] : List Vec3).getD 0 vecZero)
          ((nearby_faces cexMesh [cexP]).getD 0 [])).getD k 0 ≤
        (candidate_d2 cexProj cexMesh (([cexP] : List Vec3).getD 0 vecZero)
          ((nearby_faces cexMesh [cexP]).getD 0 [])).getD j 0) ∧
      (∀ j, j < k →
        (candidate_d2 cexProj cexMesh (([cexP] : List Vec3).getD 0 vecZero)
          ((nearby_faces cexMesh [cexP]).getD 0 [])).getD k 0 <
        (candidate_d2 cexProj cexMesh (([cexP] : List Vec3).getD 0 vecZero)
          ((nearby_faces cexMesh [cexP]).getD 0 [])).getD j 0) :=
  closest_point_reducer_argmin cexProj cexMesh [cexP] [Vec3.mk 1 1 0] [2] [0] 0
    cex_eval (by norm_num)

/-- C6: a query point whose candidate set is empty makes the whole
`closest_point` call fail (the per-group `argmin` raises), returning an error
and no result arrays at all; `closest_point_naive` likewise fails for a mesh
with no triangles. -/
theorem empty_candidates_error (proj : Tri → Vec3 → Vec3) (mesh : Mesh)
    (points : List Vec3) (i : ℕ) (hi : i < points.length)
    (hc : (nearby_faces mesh points).getD i [] = []) :
    (∃ e, closest_point proj mesh points = Except.error e) ∧
    (mesh.triangles = [] → ∃ e, closest_point_naive proj mesh points = Except.error e) := by
  constructor
  · apply closest_point_error_of_row proj mesh points i hi
      (QErr.numpy_error "attempt to get argmin of an empty sequence")
    rw [hc]
    rfl
  · intro ht
    apply closest_point_naive_error_of_row proj mesh points i hi
      (QErr.numpy_error "attempt to get argmin of an empty sequence")
    rw [ht]
    rfl

/-- Witness for C6: a mesh with a vertex but no triangles. -/
theorem empty_candidates_error_witness :
    (∃ e, closest_point cexProj cexEmptyMesh [vecZero] = Except.error e) ∧
    (cexEmptyMesh.triangles = [] →
      ∃ e, closest_point_naive cexProj cexEmptyMesh [vecZero] = Except.error e) :=
  empty_candidates_error cexProj cexEmptyMesh [vecZero] 0 (by norm_num) rfl

/-- C7 counterexample: a malformed (1,2)-shaped query to `Nearest.vertex` is
not rejected by this module — the raw points reach the nearest-vertex index
and the error that comes back is the index service's own, not a
shape-mismatch raised before any spatial index is queried. -/
theorem Nearest_vertex_no_validation :
    Nearest_vertex cexMesh [[0, 0]] =
      Except.error (QErr.index_error "x must consist of vectors of length 3") ∧
    ∀ msg, Nearest_vertex cexMesh [[0, 0]] ≠ Except.error (QErr.shape_mismatch msg) := by
  refine ⟨rfl, fun msg hcontra => ?_⟩
  have h1 : Nearest_vertex cexMesh [[0, 0]] =
      Except.error (QErr.index_error "x must consist of vectors of length 3") := rfl
  rw [h1] at hcontra
  simp at hcontra

/-- C7 (amended): `nearby_faces`, `closest_point`, `closest_point_naive` and
`Nearest.on_surface` validate the points shape and fail fast with this
module's descriptive shape-mismatch error before any spatial index is
queried; `Nearest.vertex`, however, performs no validation of its own and
hands the malformed input to the nearest-vertex index, whose own error
surfaces instead. -/
theorem entry_points_validate_shape (proj : Tri → Vec3 → Vec3) (mesh : Mesh)
    (pts : List (List ℚ)) (h : valid_points pts = false) :
    nearby_faces_checked mesh pts =
      Except.error (QErr.shape_mismatch "points must be (n,3)!") ∧
    closest_point_checked proj mesh pts =
      Except.error (QErr.shape_mismatch "points must be (n,3)!") ∧
    closest_point_naive_checked proj mesh pts =
      Except.error (QErr.shape_mismatch "points must be (n,3)") ∧
    Nearest_on_surface proj mesh pts =
      Except.error (QErr.shape_mismatch "points must be (n,3)!") ∧
    (∃ e, Nearest_vertex mesh pts = Except.error (QErr.index_error e)) := by
  have hp : parse_points pts = none := by
    simp [parse_points, h]
  refine ⟨?_, ?_, ?_, ?_, ⟨"x must consist of vectors of length 3", ?_⟩⟩ <;>
    simp [nearby_faces_checked, closest_point_checked, closest_point_naive_checked,
      Nearest_on_surface, Nearest_vertex, kdtree_query_raw, hp]

/-- Witness for C7's amended claim on a concrete malformed input. -/
theorem entry_points_validate_shape_witness :
    valid_points [[0, 0]] = false ∧
    (nearby_faces_checked cexMesh [[0, 0]] =
      Except.error (QErr.shape_mismatch "points must be (n,3)!") ∧
    closest_point_checked cexProj cexMesh [[0, 0]] =
      Except.error (QErr.shape_mismatch "points must be (n,3)!") ∧
    closest_point_naive_checked cexProj cexMesh [[0, 0]] =
      Except.error (QErr.shape_mismatch "points must be (n,3)") ∧
    Nearest_on_surface cexProj cexMesh [[0, 0]] =
      Except.error (QErr.shape_mismatch "points must be (n,3)!") ∧
    (∃ e, Nearest_vertex cexMesh [[0, 0]] = Except.error (QErr.index_error e))) :=
  ⟨rfl, entry_points_validate_shape cexProj cexMesh [[0, 0]] rfl⟩

/-- C8: row i of a successful batched result is exactly the result of querying
the single point of row i on its own, and duplicate query points in one batch
receive identical result rows. -/
theorem closest_point_rowwise (proj : Tri → Vec3 → Vec3) (mesh : Mesh)
    (points : List Vec3) (cl : List Vec3) (d2 : List ℚ) (tid : List ℕ) (i : ℕ)
    (h : closest_point proj mesh points = Except.ok (cl, d2, tid))
    (hi : i < points.length) :
    closest_point proj mesh [points.getD i vecZero] =
      Except.ok ([cl.getD i vecZero], [d2.getD i 0], [tid.getD i 0]) ∧
    ∀ j, j < points.length → points.getD j vecZero = points.getD i vecZero →
      cl.getD j vecZero = cl.getD i vecZero ∧ d2.getD j 0 = d2.getD i 0 ∧
        tid.getD j 0 = tid.getD i 0 := by
  obtain ⟨hcl, hd2, htid, hrow⟩ := closest_point_ok_parts proj mesh points cl d2 tid h
  constructor
  · have hc : nearby_faces mesh [points.getD i vecZero] =
        [(nearby_faces mesh points).getD i []] := by
      simp only [nearby_faces]
      rw [getD_map_lt _ points i hi _ vecZero]
      rfl
    exact closest_point_one proj mesh (points.getD i vecZero)
      ((nearby_faces mesh points).getD i []) _ _ _ hc (hrow i hi)
  · intro j hj hpj
    have hrj := hrow j hj
    have hri := hrow i hi
    rw [hpj] at hrj
    have hcj : (nearby_faces mesh points).getD j [] =
        (nearby_faces mesh points).getD i [] := by
      simp only [nearby_faces]
      rw [getD_map_lt _ points j hj _ vecZero, getD_map_lt _ points i hi _ vecZero, hpj]
    rw [hcj] at hrj
    have hsame := hri.symm.trans hrj
    simp only [Except.ok.injEq, Prod.mk.injEq] at hsame
    exact ⟨hsame.1.symm, hsame.2.1.symm, hsame.2.2.symm⟩

/-- Witness for C8 on the concrete mesh. -/
theorem closest_point_rowwise_witness :
    closest_point cexProj cexMesh [cexP] =
      Except.ok ([Vec3.mk 1 1 0], [(2 : ℚ)], [(0 : ℕ)]) ∧
    ∀ j, j < ([cexP] : List Vec3).length →
      ([cexP] : List Vec3).getD j vecZero = ([cexP] : List Vec3).getD 0 vecZero →
      ([Vec3.mk 1 1 0] : List Vec3).getD j vecZero =
        ([Vec3.mk 1 1 0] : List Vec3).getD 0 vecZero ∧
      ([(2 : ℚ)] : List ℚ).getD j 0 = ([(2 : ℚ)] : List ℚ).getD 0 0 ∧
      ([(0 : ℕ)] : List ℕ).getD j 0 = ([(0 : ℕ)] : List ℕ).getD 0 0 :=
  closest_point_rowwise cexProj cexMesh [cexP] [Vec3.mk 1 1 0] [2] [0] 0
    cex_eval (by norm_num)

/-- C9: two calls of `closest_point` on the same mesh, points and projection
primitive (the mesh and its deterministic indices unmodified in between)
produce the same outcome — the embedding has no hidden state. -/
theorem closest_point_idempotent (proj : Tri → Vec3 → Vec3) (mesh : Mesh)
    (points : List Vec3) (out₁ out₂ : Except QErr (List Vec3 × List ℚ × List ℕ))
    (h₁ : closest_point proj mesh points = out₁)
    (h₂ : closest_point proj mesh points = out₂) : out₁ = out₂ := by
  rw [← h₁, ← h₂]

/-- Witness for C9: the concrete query evaluated twice. -/
theorem closest_point_idempotent_witness :
    (Except.ok ([Vec3.mk 1 1 0], [(2 : ℚ)], [(0 : ℕ)]) :
      Except QErr (List Vec3 × List ℚ × List ℕ)) =
    Except.ok ([Vec3.mk 1 1 0], [(2 : ℚ)], [(0 : ℕ)]) :=
  closest_point_idempotent cexProj cexMesh [cexP] _ _ cex_eval cex_eval

/-- C10: an empty (0,3) batch makes `closest_point` raise (stacking the empty
sequence of per-point tiles fails in `np.vstack`), while `nearby_faces` on
the same input succeeds with an empty candidate list. -/
theorem closest_point_empty_batch (proj : Tri → Vec3 → Vec3) (mesh : Mesh) :
    closest_point proj mesh [] =
      Except.error (QErr.numpy_error "need at least one array to concatenate") ∧
    nearby_faces mesh [] = [] :=
  ⟨rfl, rfl⟩

end Trimesh
